import Mathlib

/-!
Shallow embedding of the signature-coordination core of dg_fast_farmer:
`handle_signature` from src/farmer/protocols/harvester/respond_signatures.rs
and `load_keys` from src/farmer/config.rs.

Byte strings (Bytes32/Bytes48/Bytes96, plot identifiers, puzzle hashes) are
modelled as opaque `Nat` identifiers.  The external BLS primitives
(generate_plot_public_key, generate_taproot_sk, sign, sign_prepend,
aggregation, verification) are external pure library functions for this core
(spec section 6); they are given an ideal algebraic model: a partial
signature is a list of atoms recording (signer secret, message, prepended
public key bytes), aggregation is concatenation, and an aggregate verifies
against a public key exactly when all atoms carry the verified message and
prepended key and the signing secrets sum to the key's secret.  Secret keys
map injectively to public keys.  HashMaps are modelled as association lists
with first-match lookup and replace-or-append insertion.

Crash behavior (out-of-bounds Vec indexing, assert!) is made explicit via an
`Outcome.panicked` result, and the outbound websocket send is modelled by
accumulating the serialized protocol messages in a `sent` list.
-/

namespace DgFF

/-- Public key in the ideal BLS model: a wrapper around the secret exponent. -/
structure Pk where
  key : Nat
deriving DecidableEq, Repr

/-- Ideal model of blst sk_to_pk: injective secret-to-public map. -/
def skToPk (sk : Nat) : Pk := ⟨sk⟩

/-- Ideal model of PublicKey::to_bytes / to_sized_bytes. -/
def pkToBytes (p : Pk) : Nat := p.key

/-- Ideal model of dg_xch_core generate_taproot_sk: a deterministic secret
derived from the local public key and the farmer public key. -/
def generate_taproot_sk (localPk : Pk) (farmerPk : Pk) : Nat :=
  Nat.pair localPk.key farmerPk.key

/-- Ideal model of dg_xch_core generate_plot_public_key: the group sum of the
local key, the farmer key and, when include_taproot is set, the taproot key. -/
def generate_plot_public_key (localPk : Pk) (farmerPk : Pk)
    (includeTaproot : Bool) : Pk :=
  if includeTaproot then
    ⟨localPk.key + farmerPk.key + (skToPk (generate_taproot_sk localPk farmerPk)).key⟩
  else
    ⟨localPk.key + farmerPk.key⟩

/-- One atom of a partial signature in the ideal model: who signed which
message, with which public key prepended (AUG scheme). -/
structure SigAtom where
  signer : Nat
  msg : Nat
  prepended : Nat
deriving DecidableEq, Repr

/-- A (partial or aggregate) signature: a formal sum of atoms. -/
abbrev Sig := List SigAtom

/-- Ideal model of bls_bindings sign_prepend (AUG scheme, the aggregate
public key prepended into the signed payload). -/
def sign_prepend (sk : Nat) (msg : Nat) (aggPk : Pk) : Sig :=
  [⟨sk, msg, pkToBytes aggPk⟩]

/-- Ideal model of bls_bindings sign (AUG scheme, the signer's own public key
prepended). -/
def sign (sk : Nat) (msg : Nat) : Sig :=
  [⟨sk, msg, pkToBytes (skToPk sk)⟩]

/-- Ideal model of AggregateSignature::aggregate over structurally valid
signatures: the formal sum of the shares.  (The blst call can only fail on
byte strings that are not valid group elements, which in this model are
rejected during decoding.) -/
def aggregate (sigs : List Sig) : Sig := sigs.flatten

/-- Ideal model of Signature::verify for the AUG scheme: every atom must be
over the verified message with the expected prepended bytes, and the signing
secrets must sum to the public key's secret. -/
def verify (s : Sig) (msg : Nat) (prependedBytes : Nat) (pk : Pk) : Bool :=
  s.all (fun a => a.msg == msg && a.prepended == prependedBytes) &&
    (s.map SigAtom.signer).sum == pk.key

/-- Wire form of a partial signature (Bytes96): either well formed bytes that
decode to a signature, or bytes that fail fixed-size decoding. -/
inductive SigBytes where
  | wellFormed (s : Sig)
  | malformed
deriving DecidableEq, Repr

/-- Ideal model of the fallible try_into conversion from signature bytes. -/
def decodeSig : SigBytes → Except String Sig
  | .wellFormed s => .ok s
  | .malformed => .error "malformed signature bytes"

/-- FarmerPoolState signage point record (the fields read by this core). -/
structure SignagePointRecord where
  challenge_hash : Nat
  sp_hash : Nat
  reward_chain_sp : Nat
  signage_point_index : Nat
deriving DecidableEq, Repr

/-- Stored proof-of-space candidate (the fields read by this core). -/
structure ProofOfSpace where
  plot_public_key : Nat
  pool_public_key : Option Nat
  pool_contract_puzzle_hash : Option Nat
deriving DecidableEq, Repr

/-- dg_xch_core PoolTarget. -/
structure PoolTarget where
  max_height : Nat
  puzzle_hash : Nat
deriving DecidableEq, Repr

/-- Opaque serialization of a PoolTarget (ChiaSerialize to_bytes). -/
def poolTargetBytes (t : PoolTarget) : Nat := Nat.pair t.max_height t.puzzle_hash

/-- Inbound harvester message RespondSignatures. -/
structure RespondSignatures where
  challenge_hash : Nat
  sp_hash : Nat
  plot_identifier : Nat
  local_pk : Nat
  farmer_pk : Nat
  message_signatures : List (Nat × SigBytes)
deriving DecidableEq, Repr

/-- Outbound DeclareProofOfSpace message. -/
structure DeclareProofOfSpace where
  challenge_hash : Nat
  challenge_chain_sp : Nat
  signage_point_index : Nat
  reward_chain_sp : Nat
  proof_of_space : ProofOfSpace
  challenge_chain_sp_signature : Sig
  reward_chain_sp_signature : Sig
  farmer_puzzle_hash : Nat
  pool_target : Option PoolTarget
  pool_signature : Option Sig
deriving DecidableEq, Repr

/-- Outbound SignedValues message. -/
structure SignedValues where
  quality_string : Nat
  foliage_block_data_signature : Sig
  foliage_transaction_block_signature : Sig
deriving DecidableEq, Repr

/-- A message sent to the full node connection. -/
inductive OutMessage where
  | declare (d : DeclareProofOfSpace)
  | signedValues (v : SignedValues)
deriving DecidableEq, Repr

/-- The slice of FarmerSharedState read by handle_signature.  HashMaps are
association lists; full_node_client records whether a connection is held. -/
structure FarmerSharedState where
  signage_points : List (Nat × List SignagePointRecord)
  proofs_of_space : List (Nat × List (Nat × ProofOfSpace))
  farmer_private_keys : List (Nat × Nat)
  pool_public_keys : List (Nat × Nat)
  farmer_target : Nat
  pool_target : Nat
  full_node_client : Bool
deriving DecidableEq, Repr

/-- Terminal outcome of one handle_signature call: a normal Ok return, a
propagated Err, or a Rust panic (index out of bounds / assert!). -/
inductive Outcome where
  | ok
  | err (msg : String)
  | panicked (msg : String)
deriving DecidableEq, Repr

/-- Result of one handle_signature call: the outcome plus every message that
was sent over the full node connection during the call. -/
structure HandleResult where
  outcome : Outcome
  sent : List OutMessage
deriving DecidableEq, Repr

/-- Result of one iteration of the farmer-private-key loop: either the whole
function returns Ok(()) early, or the loop continues having sent an optional
message. -/
inductive IterResult where
  | exit
  | cont (m : Option OutMessage)
deriving DecidableEq, Repr

/-- The sp-signature detection loop (respond_signatures.rs lines 50-59):
for each stored record it compares message_signatures[0].0 with the
response's sp_hash, and on equality also reads message_signatures[1].0.
An out-of-bounds index is a panic, surfaced as an error here.
Returns (is_sp_signatures, found_sp_hash_debug). -/
def detectSpSignatures (spHash : Nat) (ms : List (Nat × SigBytes))
    (sps : List SignagePointRecord) : Except String (Bool × Bool) :=
  match sps with
  | [] => .ok (false, false)
  | _ :: _ =>
    match ms[0]? with
    | none => .error "index out of bounds"
    | some m0 =>
      if spHash = m0.1 then
        match ms[1]? with
        | none => .error "index out of bounds"
        | some m1 =>
          .ok (sps.any (fun sp => sp.reward_chain_sp == m1.1), true)
      else
        .ok (false, false)

/-- Builds the DeclareProofOfSpace request (respond_signatures.rs lines
221-239). -/
def mkDeclare (st : FarmerSharedState) (response : RespondSignatures)
    (pospace : ProofOfSpace) (spIndex ccSp rcSp : Nat) (aggCc aggRc : Sig)
    (pt : Option PoolTarget) (ptSig : Option Sig) : DeclareProofOfSpace :=
  { challenge_hash := response.challenge_hash
    challenge_chain_sp := ccSp
    signage_point_index := spIndex
    reward_chain_sp := rcSp
    proof_of_space := pospace
    challenge_chain_sp_signature := aggCc
    reward_chain_sp_signature := aggRc
    farmer_puzzle_hash := st.farmer_target
    pool_target := pt
    pool_signature := ptSig }

/-- Body of the signage-point-phase key loop for one matching secret key
(respond_signatures.rs lines 99-262): derive the augmented key, drop on plot
key mismatch, build taproot/farmer shares, aggregate with the harvester
shares, verify both aggregates, resolve the pool target, and send the
declaration when a connection is held. -/
def phaseABody (st : FarmerSharedState) (response : RespondSignatures)
    (pospace : ProofOfSpace) (includeTaproot : Bool) (spIndex : Nat)
    (ccSp : Nat) (ccHarvSig : Sig) (rcSp : Nat) (rcHarvSig : Sig)
    (sk : Nat) : IterResult :=
  let localPk : Pk := ⟨response.local_pk⟩
  let pk := skToPk sk
  let aggPk := generate_plot_public_key localPk pk includeTaproot
  if pkToBytes aggPk ≠ pospace.plot_public_key then
    .exit
  else
    let taprootShares : Option Sig × Option Sig :=
      if includeTaproot then
        let taprootSk := generate_taproot_sk localPk pk
        (some (sign_prepend taprootSk ccSp aggPk),
         some (sign_prepend taprootSk rcSp aggPk))
      else (none, none)
    let farmerShareCc := sign_prepend sk ccSp aggPk
    let ccSigsToAgg :=
      match taprootShares.1 with
      | some t => [ccHarvSig, farmerShareCc, t]
      | none => [ccHarvSig, farmerShareCc]
    let aggSigCc := aggregate ccSigsToAgg
    if ¬ verify aggSigCc ccSp (pkToBytes aggPk) aggPk then
      .exit
    else
      let farmerShareRc := sign_prepend sk rcSp aggPk
      let rcSigsToAgg :=
        match taprootShares.2 with
        | some t => [rcHarvSig, farmerShareRc, t]
        | none => [rcHarvSig, farmerShareRc]
      let aggSigRc := aggregate rcSigsToAgg
      if ¬ verify aggSigRc rcSp (pkToBytes aggPk) aggPk then
        .exit
      else
        let poolRes : Except Unit (Option PoolTarget × Option Sig) :=
          match pospace.pool_public_key with
          | some poolPk =>
            match st.pool_public_keys.lookup poolPk with
            | some poolSk =>
              let pt : PoolTarget := ⟨0, st.pool_target⟩
              .ok (some pt, some (sign poolSk (poolTargetBytes pt)))
            | none => .error ()
          | none => .ok (none, none)
        match poolRes with
        | .error _ => .exit
        | .ok (pt, ptSig) =>
          let request := mkDeclare st response pospace spIndex ccSp rcSp aggSigCc aggSigRc pt ptSig
          if st.full_node_client then .cont (some (.declare request))
          else .cont none

/-- Body of the block/foliage-phase key loop for one matching secret key
(respond_signatures.rs lines 279-410).  Unlike the signage-point phase there
is no plot-public-key equality check. -/
def phaseBBody (st : FarmerSharedState) (response : RespondSignatures)
    (includeTaproot : Bool) (qualityString : Nat)
    (foliageHash : Nat) (foliageHarvSig : Sig)
    (foliageTxHash : Nat) (foliageTxHarvSig : Sig)
    (sk : Nat) : IterResult :=
  let localPk : Pk := ⟨response.local_pk⟩
  let pk := skToPk sk
  let aggPk := generate_plot_public_key localPk pk includeTaproot
  let taprootShares : Option Sig × Option Sig :=
    if includeTaproot then
      let taprootSk := generate_taproot_sk localPk pk
      (some (sign_prepend taprootSk foliageHash aggPk),
       some (sign_prepend taprootSk foliageTxHash aggPk))
    else (none, none)
  let foliageSigFarmer := sign_prepend sk foliageHash aggPk
  let foliageTxSigFarmer := sign_prepend sk foliageTxHash aggPk
  let foliageSigsToAgg :=
    match taprootShares.1 with
    | some t => [foliageHarvSig, foliageSigFarmer, t]
    | none => [foliageHarvSig, foliageSigFarmer]
  let foliageAggSig := aggregate foliageSigsToAgg
  let foliageBlockSigsToAgg :=
    match taprootShares.2 with
    | some t => [foliageTxHarvSig, foliageTxSigFarmer, t]
    | none => [foliageTxHarvSig, foliageTxSigFarmer]
  let foliageBlockAggSig := aggregate foliageBlockSigsToAgg
  if ¬ verify foliageAggSig foliageHash (pkToBytes aggPk) aggPk then
    .exit
  else if ¬ verify foliageBlockAggSig foliageTxHash (pkToBytes aggPk) aggPk then
    .exit
  else
    let request : SignedValues :=
      { quality_string := qualityString
        foliage_block_data_signature := foliageAggSig
        foliage_transaction_block_signature := foliageBlockAggSig }
    if st.full_node_client then .cont (some (.signedValues request))
    else .cont none

/-- The farmer-private-key loop shared by both phases: iterate the key map,
run the body for every key whose derived public key matches the response's
farmer_pk.  A body .exit returns from the whole function (dropping later
keys); a .cont continues with the optional sent message recorded. -/
def keyLoop (farmerPkBytes : Nat) (body : Nat → IterResult) :
    List (Nat × Nat) → List OutMessage
  | [] => []
  | (_, sk) :: rest =>
    if pkToBytes (skToPk sk) == farmerPkBytes then
      match body sk with
      | .exit => []
      | .cont none => keyLoop farmerPkBytes body rest
      | .cont (some m) => m :: keyLoop farmerPkBytes body rest
    else keyLoop farmerPkBytes body rest

/-- Signage-point phase (respond_signatures.rs lines 87-264): destructure and
decode the two harvester partial signatures (indexing that cannot fail on
this path, kept as an explicit panic branch), then run the key loop. -/
def runPhaseA (st : FarmerSharedState) (response : RespondSignatures)
    (pospace : ProofOfSpace) (includeTaproot : Bool) (spIndex : Nat) :
    HandleResult :=
  match response.message_signatures[0]?, response.message_signatures[1]? with
  | some (ccSp, ccHarvBytes), some (rcSp, rcHarvBytes) =>
    match decodeSig ccHarvBytes with
    | .error e => ⟨.err e, []⟩
    | .ok ccHarvSig =>
      match decodeSig rcHarvBytes with
      | .error e => ⟨.err e, []⟩
      | .ok rcHarvSig =>
        ⟨.ok, keyLoop response.farmer_pk
          (phaseABody st response pospace includeTaproot spIndex ccSp ccHarvSig rcSp rcHarvSig)
          st.farmer_private_keys⟩
  | _, _ => ⟨.panicked "index out of bounds", []⟩

/-- Block/foliage phase (respond_signatures.rs lines 265-412), guarded by
message_signatures.len() > 1 at the call site. -/
def runPhaseB (st : FarmerSharedState) (response : RespondSignatures)
    (includeTaproot : Bool) (qualityString : Nat) : HandleResult :=
  match response.message_signatures[0]?, response.message_signatures[1]? with
  | some (foliageHash, fhBytes), some (foliageTxHash, ftBytes) =>
    match decodeSig fhBytes with
    | .error e => ⟨.err e, []⟩
    | .ok foliageHarvSig =>
      match decodeSig ftBytes with
      | .error e => ⟨.err e, []⟩
      | .ok foliageTxHarvSig =>
        ⟨.ok, keyLoop response.farmer_pk
          (phaseBBody st response includeTaproot qualityString
            foliageHash foliageHarvSig foliageTxHash foliageTxHarvSig)
          st.farmer_private_keys⟩
  | _, _ => ⟨.panicked "index out of bounds", []⟩

/-- Shallow embedding of RespondSignaturesHandler::handle_signature
(respond_signatures.rs lines 35-430).  qualityOf is the external
verify_and_get_quality_string collaborator (constants folded in). -/
def handle_signature (qualityOf : ProofOfSpace → Nat → Nat → Option Nat)
    (st : FarmerSharedState) (response : RespondSignatures) : HandleResult :=
  match st.signage_points.lookup response.sp_hash with
  | none => ⟨.ok, []⟩
  | some sps =>
    match sps with
    | [] => ⟨.ok, []⟩
    | sp0 :: rest =>
      let spIndex := sp0.signage_point_index
      match detectSpSignatures response.sp_hash response.message_signatures (sp0 :: rest) with
      | .error e => ⟨.panicked e, []⟩
      | .ok (isSp, found) =>
        if found && !isSp then
          ⟨.panicked "assertion failed: is_sp_signatures", []⟩
        else
          match st.proofs_of_space.lookup response.sp_hash with
          | none => ⟨.ok, []⟩
          | some proofs =>
            match proofs.lookup response.plot_identifier with
            | none => ⟨.ok, []⟩
            | some pospace =>
              let includeTaproot := pospace.pool_contract_puzzle_hash.isSome
              match qualityOf pospace response.challenge_hash response.sp_hash with
              | none => ⟨.ok, []⟩
              | some quality =>
                if isSp then
                  runPhaseA st response pospace includeTaproot spIndex
                else if response.message_signatures.length > 1 then
                  runPhaseB st response includeTaproot quality
                else
                  ⟨.ok, []⟩

/-- config.rs FarmingInfo (key material fields as opaque Nat secrets). -/
structure FarmingInfo where
  farmer_secret_key : Nat
  launcher_id : Option Nat
  pool_secret_key : Option Nat
  owner_secret_key : Option Nat
  auth_secret_key : Option Nat
deriving DecidableEq, Repr

/-- HashMap::insert on the association-list model: replace the binding of an
existing key, else append. -/
def mapInsert (k v : Nat) : List (Nat × Nat) → List (Nat × Nat)
  | [] => [(k, v)]
  | (k', v') :: rest => if k' = k then (k, v) :: rest else (k', v') :: mapInsert k v rest

/-- The four key maps returned by load_keys. -/
structure LoadedKeys where
  farmer_secret_keys : List (Nat × Nat)
  owner_secret_keys : List (Nat × Nat)
  auth_secret_keys : List (Nat × Nat)
  pool_secret_keys : List (Nat × Nat)
deriving DecidableEq, Repr

/-- One iteration of the load_keys loop (config.rs lines 125-140). -/
def load_keys_step (acc : LoadedKeys) (farmerInfo : FarmingInfo) : LoadedKeys :=
  let fSk := farmerInfo.farmer_secret_key
  let acc := { acc with
    farmer_secret_keys := mapInsert (pkToBytes (skToPk fSk)) fSk acc.farmer_secret_keys }
  let acc :=
    match farmerInfo.pool_secret_key with
    | some pSk =>
      { acc with
        pool_secret_keys := mapInsert (pkToBytes (skToPk pSk)) pSk acc.pool_secret_keys }
    | none => acc
  match farmerInfo.owner_secret_key with
  | some oSk =>
    let acc := { acc with
      owner_secret_keys := mapInsert (pkToBytes (skToPk oSk)) oSk acc.owner_secret_keys }
    match farmerInfo.auth_secret_key with
    | some aSk =>
      { acc with
        auth_secret_keys := mapInsert (pkToBytes (skToPk oSk)) aSk acc.auth_secret_keys }
    | none => acc
  | none => acc

/-- Shallow embedding of config.rs load_keys (lines 113-147). -/
def load_keys (farmerInfos : List FarmingInfo) : LoadedKeys :=
  farmerInfos.foldl load_keys_step ⟨[], [], [], []⟩

/-- Statement helper: the taproot component of an aggregate, present exactly
when the taproot flag is set (empty formal sum otherwise). -/
def tapShare (tap : Bool) (localPk farmerPk : Pk) (msg : Nat) (aggPk : Pk) : Sig :=
  if tap then sign_prepend (generate_taproot_sk localPk farmerPk) msg aggPk else []

/-- In the ideal model secret keys map injectively to public keys, so every
key-map entry whose derived public key matches the response's farmer_pk holds
the same secret; the loop therefore reduces to the body's value at that
secret, replicated once per matching entry (or nothing on an early exit). -/
theorem keyLoop_eq (fpk : Nat) (body : Nat → IterResult) (ks : List (Nat × Nat)) :
    keyLoop fpk body ks =
      match body fpk with
      | .cont (some m) =>
          List.replicate (ks.countP fun kv => pkToBytes (skToPk kv.2) == fpk) m
      | _ => []:= by
  induction ks with
  | nil =>
    cases hb : body fpk with
    | exit => simp [keyLoop]
    | cont m => cases m <;> simp [keyLoop]
  | cons kv rest ih =>
    obtain ⟨kb, sk⟩ := kv
    rw [keyLoop]
    by_cases h : (pkToBytes (skToPk sk) == fpk) = true
    · have hsk : sk = fpk := by simpa [pkToBytes, skToPk] using h
      subst hsk
      rw [if_pos h, ih]
      cases hb : body sk with
      | exit => rfl
      | cont m =>
        cases m with
        | none => rfl
        | some msg =>
          have hc : List.countP (fun kv : Nat × Nat => pkToBytes (skToPk kv.2) == sk)
                ((kb, sk) :: rest)
              = List.countP (fun kv : Nat × Nat => pkToBytes (skToPk kv.2) == sk) rest + 1 :=
            List.countP_cons_of_pos _ _ h
          simp only [hc, List.replicate_succ]
    · rw [if_neg h, ih]
      cases hb : body fpk with
      | exit => rfl
      | cont m =>
        cases m with
        | none => rfl
        | some msg =>
          have hc : List.countP (fun kv : Nat × Nat => pkToBytes (skToPk kv.2) == fpk)
                ((kb, sk) :: rest)
              = List.countP (fun kv : Nat × Nat => pkToBytes (skToPk kv.2) == fpk) rest :=
            List.countP_cons_of_neg _ _ h
          simp only [hc]

/-- C1: the claim says handle_signature never panics on any incoming
message_signatures shape; the code violates this.  At a state holding a
signage point record with reward_chain_sp 7 and a response whose first
message hash equals its sp_hash but whose second message hash (9) matches no
stored record's reward chain value, the assert at respond_signatures.rs line
61 fires and the call panics instead of returning. -/
theorem handle_signature_panics_on_assert :
    handle_signature (fun _ _ _ => none)
      ⟨[(1, [⟨5, 1, 7, 9⟩])], [], [], [], 0, 0, true⟩
      ⟨5, 1, 0, 0, 0, [(1, .wellFormed []), (9, .wellFormed [])]⟩ =
    ⟨.panicked "assertion failed: is_sp_signatures", []⟩ := by
  rfl

/-- C3: the claim says an empty or single-entry message_signatures list is
silently ignored with Ok(()); the code instead indexes message_signatures[0]
(respond_signatures.rs line 53) before any length check, so with a known
non-empty signage point list and an empty message list the call panics with
an out-of-bounds index rather than returning Ok. -/
theorem handle_signature_panics_on_empty_list :
    handle_signature (fun _ _ _ => none)
      ⟨[(1, [⟨5, 1, 7, 9⟩])], [], [], [], 0, 0, true⟩
      ⟨5, 1, 0, 0, 0, []⟩ =
    ⟨.panicked "index out of bounds", []⟩ := by
  rfl

/-- C2 counterexample: in the block/foliage phase the code performs no
plot-public-key equality check, refuting the claim for that phase.  Here the
augmented public key derived from local_pk 2 and matching farmer key 3 has
bytes 5, different from the stored candidate proof's plot_public_key 999,
yet the call still emits a SignedValues message. -/
theorem phaseB_emits_despite_key_mismatch :
    pkToBytes (generate_plot_public_key ⟨2⟩ (skToPk 3) false) ≠ (999 : Nat) ∧
    (handle_signature (fun _ _ _ => some 42)
      ⟨[(1, [⟨5, 1, 7, 9⟩])], [(1, [(4, ⟨999, none, none⟩)])], [(3, 3)], [], 11, 12, true⟩
      ⟨5, 1, 4, 2, 3, [(6, .wellFormed [⟨2, 6, 5⟩]), (8, .wellFormed [⟨2, 8, 5⟩])]⟩).sent ≠
      [] := by
  constructor
  · decide
  · decide

/-- C2 (amended): only in the signage-point phase does a mismatch between
the augmented public key derived from (local_pk, matching farmer public key,
include_taproot) and the stored candidate proof's plot_public_key cause the
response to be dropped without emitting; the block/foliage phase performs no
such check.  Formally: whenever the response is in the signage-point phase
(the detection loop yields is_sp_signatures = true) and the derived augmented
key differs from the stored proof's plot public key, nothing is sent. -/
theorem key_mismatch_drops_in_sp_phase
    (qual : ProofOfSpace → Nat → Nat → Option Nat)
    (st : FarmerSharedState) (r : RespondSignatures)
    (sps : List SignagePointRecord) (found : Bool)
    (proofs : List (Nat × ProofOfSpace)) (pospace : ProofOfSpace)
    (hsps : st.signage_points.lookup r.sp_hash = some sps)
    (hdet : detectSpSignatures r.sp_hash r.message_signatures sps = .ok (true, found))
    (hproofs : st.proofs_of_space.lookup r.sp_hash = some proofs)
    (hpos : proofs.lookup r.plot_identifier = some pospace)
    (hmis : pkToBytes (generate_plot_public_key ⟨r.local_pk⟩ (skToPk r.farmer_pk)
        pospace.pool_contract_puzzle_hash.isSome) ≠ pospace.plot_public_key) :
    (handle_signature qual st r).sent = [] := by
  cases sps with
  | nil => simp [detectSpSignatures] at hdet
  | cons sp0 rest =>
    unfold handle_signature
    rw [hsps]
    simp only [hdet, hproofs, hpos]
    cases hq : qual pospace r.challenge_hash r.sp_hash with
    | none => simp
    | some q =>
      simp only [Bool.not_true, Bool.and_false, if_false, if_true]
      unfold runPhaseA
      cases hm0 : r.message_signatures[0]? with
      | none => simp
      | some m0 =>
        cases hm1 : r.message_signatures[1]? with
        | none => simp
        | some m1 =>
          obtain ⟨ccSp, ccB⟩ := m0
          obtain ⟨rcSp, rcB⟩ := m1
          cases ccB with
          | malformed => simp [decodeSig]
          | wellFormed ccSig =>
            cases rcB with
            | malformed => simp [decodeSig]
            | wellFormed rcSig =>
              simp only [decodeSig]
              rw [keyLoop_eq]
              have hbody : phaseABody st r pospace pospace.pool_contract_puzzle_hash.isSome
                  sp0.signage_point_index ccSp ccSig rcSp rcSig r.farmer_pk = .exit := by
                unfold phaseABody
                rw [if_pos hmis]
              rw [hbody]
              simp

/-- C2 witness: a concrete signage-point-phase response whose derived
augmented key (bytes 13) differs from the stored plot public key (999) is
dropped with nothing sent. -/
theorem key_mismatch_drops_in_sp_phase_witness :
    (handle_signature (fun _ _ _ => some 7)
      ⟨[(1, [⟨5, 1, 2, 9⟩])], [(1, [(4, ⟨999, none, none⟩)])], [(3, 3)], [], 11, 12, true⟩
      ⟨5, 1, 4, 10, 3,
        [(1, .wellFormed [⟨10, 1, 13⟩]), (2, .wellFormed [⟨10, 2, 13⟩])]⟩).sent = [] :=
  key_mismatch_drops_in_sp_phase (fun _ _ _ => some 7)
    ⟨[(1, [⟨5, 1, 2, 9⟩])], [(1, [(4, ⟨999, none, none⟩)])], [(3, 3)], [], 11, 12, true⟩
    ⟨5, 1, 4, 10, 3, [(1, .wellFormed [⟨10, 1, 13⟩]), (2, .wellFormed [⟨10, 2, 13⟩])]⟩
    [⟨5, 1, 2, 9⟩] true [(4, ⟨999, none, none⟩)] ⟨999, none, none⟩
    (by rfl) (by rfl) (by rfl) (by rfl) (by decide)

/-- In the signage-point phase, a propagated Err can only come from one of
the first two message_signatures entries failing fixed-size decoding. -/
theorem runPhaseA_err (st : FarmerSharedState) (r : RespondSignatures)
    (pospace : ProofOfSpace) (tap : Bool) (idx : Nat) (e : String)
    (h : (runPhaseA st r pospace tap idx).outcome = .err e) :
    ∃ i hsh, i < 2 ∧ r.message_signatures[i]? = some (hsh, SigBytes.malformed) := by
  unfold runPhaseA at h
  cases hm0 : r.message_signatures[0]? with
  | none => rw [hm0] at h; simp at h
  | some m0 =>
    cases hm1 : r.message_signatures[1]? with
    | none => rw [hm0, hm1] at h; simp at h
    | some m1 =>
      obtain ⟨h0, sb0⟩ := m0
      obtain ⟨h1, sb1⟩ := m1
      rw [hm0, hm1] at h
      cases sb0 with
      | malformed => exact ⟨0, h0, by norm_num, hm0⟩
      | wellFormed s0 =>
        cases sb1 with
        | malformed => exact ⟨1, h1, by norm_num, hm1⟩
        | wellFormed s1 => simp [decodeSig] at h

/-- In the block/foliage phase, a propagated Err can only come from one of
the first two message_signatures entries failing fixed-size decoding. -/
theorem runPhaseB_err (st : FarmerSharedState) (r : RespondSignatures)
    (tap : Bool) (quality : Nat) (e : String)
    (h : (runPhaseB st r tap quality).outcome = .err e) :
    ∃ i hsh, i < 2 ∧ r.message_signatures[i]? = some (hsh, SigBytes.malformed) := by
  unfold runPhaseB at h
  cases hm0 : r.message_signatures[0]? with
  | none => rw [hm0] at h; simp at h
  | some m0 =>
    cases hm1 : r.message_signatures[1]? with
    | none => rw [hm0, hm1] at h; simp at h
    | some m1 =>
      obtain ⟨h0, sb0⟩ := m0
      obtain ⟨h1, sb1⟩ := m1
      rw [hm0, hm1] at h
      cases sb0 with
      | malformed => exact ⟨0, h0, by norm_num, hm0⟩
      | wellFormed s0 =>
        cases sb1 with
        | malformed => exact ⟨1, h1, by norm_num, hm1⟩
        | wellFormed s1 => simp [decodeSig] at h

/-- C4: handle_signature returns Err only for malformed cryptographic
inputs: whenever the outcome is Err, one of the (at most two) harvester
partial-signature byte strings it decoded failed fixed-size decoding.  Every
expected rejection (unknown challenge/proof, unmatched farmer key,
stale/invalid proof, key mismatch, aggregate-verification failure, missing
pool key, missing connection) takes an Ok branch, never an Err.  In the
ideal model, aggregation over signatures that passed decoding cannot fail,
so decoding is the only Err source. -/
theorem err_only_from_malformed_signature_bytes
    (qual : ProofOfSpace → Nat → Nat → Option Nat)
    (st : FarmerSharedState) (r : RespondSignatures) (e : String)
    (h : (handle_signature qual st r).outcome = .err e) :
    ∃ i hsh, i < 2 ∧ r.message_signatures[i]? = some (hsh, SigBytes.malformed) := by
  unfold handle_signature at h
  cases hsp : List.lookup r.sp_hash st.signage_points with
  | none => rw [hsp] at h; simp at h
  | some sps =>
    rw [hsp] at h
    cases sps with
    | nil => simp at h
    | cons sp0 rest =>
      dsimp only at h
      cases hdet : detectSpSignatures r.sp_hash r.message_signatures (sp0 :: rest) with
      | error e2 => rw [hdet] at h; simp at h
      | ok p =>
        obtain ⟨isSp, found⟩ := p
        rw [hdet] at h
        dsimp only at h
        cases hfi : (found && !isSp) with
        | true => rw [hfi] at h; simp at h
        | false =>
          rw [hfi] at h
          cases hpl : List.lookup r.sp_hash st.proofs_of_space with
          | none => rw [hpl] at h; simp at h
          | some proofs =>
            rw [hpl] at h
            dsimp only at h
            cases hpo : List.lookup r.plot_identifier proofs with
            | none => rw [hpo] at h; simp at h
            | some pospace =>
              rw [hpo] at h
              dsimp only at h
              cases hq : qual pospace r.challenge_hash r.sp_hash with
              | none => rw [hq] at h; simp at h
              | some quality =>
                rw [hq] at h
                dsimp only at h
                cases isSp with
                | true =>
                  simp only [if_true] at h
                  exact runPhaseA_err _ _ _ _ _ _ (by simpa using h)
                | false =>
                  by_cases hlen : r.message_signatures.length > 1
                  · rw [if_neg, if_pos hlen] at h
                    · exact runPhaseB_err _ _ _ _ _ h
                    · simp
                  · rw [if_neg, if_neg hlen] at h
                    · simp at h
                    · simp

/-- A signage-point-phase loop body that continues with a sent message sent a
DeclareProofOfSpace whose two aggregates are exactly harvester share ++
farmer share ++ taproot component, and whose pool fields come from the
candidate's pool public key. -/
theorem phaseABody_cont (st : FarmerSharedState) (r : RespondSignatures)
    (pospace : ProofOfSpace) (tap : Bool) (idx ccSp rcSp : Nat)
    (ccSig rcSig : Sig) (sk : Nat) (m : OutMessage)
    (h : phaseABody st r pospace tap idx ccSp ccSig rcSp rcSig sk = .cont (some m)) :
    ∃ d, m = .declare d ∧
      d.challenge_chain_sp_signature =
        ccSig ++ sign_prepend sk ccSp (generate_plot_public_key ⟨r.local_pk⟩ (skToPk sk) tap) ++
          tapShare tap ⟨r.local_pk⟩ (skToPk sk) ccSp
            (generate_plot_public_key ⟨r.local_pk⟩ (skToPk sk) tap) ∧
      d.reward_chain_sp_signature =
        rcSig ++ sign_prepend sk rcSp (generate_plot_public_key ⟨r.local_pk⟩ (skToPk sk) tap) ++
          tapShare tap ⟨r.local_pk⟩ (skToPk sk) rcSp
            (generate_plot_public_key ⟨r.local_pk⟩ (skToPk sk) tap) ∧
      d.challenge_hash = r.challenge_hash ∧
      d.challenge_chain_sp = ccSp ∧
      d.reward_chain_sp = rcSp ∧
      d.signage_point_index = idx ∧
      d.proof_of_space = pospace ∧
      d.farmer_puzzle_hash = st.farmer_target ∧
      ((pospace.pool_public_key = none ∧ d.pool_target = none ∧ d.pool_signature = none) ∨
        (∃ ppk psk, pospace.pool_public_key = some ppk ∧
          List.lookup ppk st.pool_public_keys = some psk ∧
          d.pool_target = some ⟨0, st.pool_target⟩ ∧
          d.pool_signature = some (sign psk (poolTargetBytes ⟨0, st.pool_target⟩)))) := by
  cases tap <;>
  [ (have htap : ¬(false = true) := by simp
     unfold phaseABody at h
     dsimp only at h
     rw [if_neg htap] at h) ;
    (have htap : (true = true) := rfl
     unfold phaseABody at h
     dsimp only at h
     rw [if_pos htap] at h) ] <;>
  · dsimp only at h
    split at h
    · exact absurd h (by simp)
    · split at h
      · exact absurd h (by simp)
      · split at h
        · exact absurd h (by simp)
        · rcases hpp : pospace.pool_public_key with _ | ppk
          · rw [hpp] at h
            dsimp only at h
            rcases hcl : st.full_node_client with _ | _ <;> rw [hcl] at h
            · simp at h
            · simp only [if_true] at h
              have hm2 := h
              simp only [IterResult.cont.injEq, Option.some.injEq] at hm2
              subst hm2
              refine ⟨_, rfl, ?_, ?_, rfl, rfl, rfl, rfl, rfl, rfl, Or.inl ⟨rfl, rfl, rfl⟩⟩
              · simp [aggregate, tapShare, mkDeclare]
              · simp [aggregate, tapShare, mkDeclare]
          · rw [hpp] at h
            dsimp only at h
            rcases hlk : List.lookup ppk st.pool_public_keys with _ | psk <;> rw [hlk] at h
            · simp at h
            · dsimp only at h
              rcases hcl : st.full_node_client with _ | _ <;> rw [hcl] at h
              · simp at h
              · simp only [if_true] at h
                have hm2 := h
                simp only [IterResult.cont.injEq, Option.some.injEq] at hm2
                subst hm2
                refine ⟨_, rfl, ?_, ?_, rfl, rfl, rfl, rfl, rfl, rfl,
                  Or.inr ⟨ppk, psk, rfl, hlk, rfl, rfl⟩⟩
                · simp [aggregate, tapShare, mkDeclare]
                · simp [aggregate, tapShare, mkDeclare]

/-- A block/foliage-phase loop body that continues with a sent message sent a
SignedValues message whose two aggregates are exactly harvester share ++
farmer share ++ taproot component. -/
theorem phaseBBody_cont (st : FarmerSharedState) (r : RespondSignatures)
    (tap : Bool) (quality fbHash ftHash : Nat)
    (fbSig ftSig : Sig) (sk : Nat) (m : OutMessage)
    (h : phaseBBody st r tap quality fbHash fbSig ftHash ftSig sk = .cont (some m)) :
    ∃ v, m = .signedValues v ∧
      v.quality_string = quality ∧
      v.foliage_block_data_signature =
        fbSig ++ sign_prepend sk fbHash (generate_plot_public_key ⟨r.local_pk⟩ (skToPk sk) tap) ++
          tapShare tap ⟨r.local_pk⟩ (skToPk sk) fbHash
            (generate_plot_public_key ⟨r.local_pk⟩ (skToPk sk) tap) ∧
      v.foliage_transaction_block_signature =
        ftSig ++ sign_prepend sk ftHash (generate_plot_public_key ⟨r.local_pk⟩ (skToPk sk) tap) ++
          tapShare tap ⟨r.local_pk⟩ (skToPk sk) ftHash
            (generate_plot_public_key ⟨r.local_pk⟩ (skToPk sk) tap) := by
  cases tap <;>
  [ (have htap : ¬(false = true) := by simp
     unfold phaseBBody at h
     dsimp only at h
     rw [if_neg htap] at h) ;
    (have htap : (true = true) := rfl
     unfold phaseBBody at h
     dsimp only at h
     rw [if_pos htap] at h) ] <;>
  · dsimp only at h
    split at h
    · exact absurd h (by simp)
    · split at h
      · exact absurd h (by simp)
      · rcases hcl : st.full_node_client with _ | _ <;> rw [hcl] at h
        · simp at h
        · simp only [if_true] at h
          have hm2 := h
          simp only [IterResult.cont.injEq, Option.some.injEq] at hm2
          subst hm2
          refine ⟨_, rfl, rfl, ?_, ?_⟩
          · simp [aggregate, tapShare]
          · simp [aggregate, tapShare]

/-- Every message sent by handle_signature arises from a successful key-loop
body in one of the two phases, with all the shared-state lookups, the two
message-list entries and their decodings pinned down. -/
theorem mem_sent_characterization
    (qual : ProofOfSpace → Nat → Nat → Option Nat)
    (st : FarmerSharedState) (r : RespondSignatures) (m : OutMessage)
    (hm : m ∈ (handle_signature qual st r).sent) :
    ∃ sp0 rest proofs pospace isSp found quality h0 s0 h1 s1 σ0 σ1,
      List.lookup r.sp_hash st.signage_points = some (sp0 :: rest) ∧
      detectSpSignatures r.sp_hash r.message_signatures (sp0 :: rest) =
        Except.ok (isSp, found) ∧
      List.lookup r.sp_hash st.proofs_of_space = some proofs ∧
      List.lookup r.plot_identifier proofs = some pospace ∧
      qual pospace r.challenge_hash r.sp_hash = some quality ∧
      r.message_signatures[0]? = some (h0, s0) ∧
      r.message_signatures[1]? = some (h1, s1) ∧
      decodeSig s0 = Except.ok σ0 ∧
      decodeSig s1 = Except.ok σ1 ∧
      ((isSp = true ∧
          phaseABody st r pospace pospace.pool_contract_puzzle_hash.isSome
            sp0.signage_point_index h0 σ0 h1 σ1 r.farmer_pk = .cont (some m)) ∨
        (isSp = false ∧ 1 < r.message_signatures.length ∧
          phaseBBody st r pospace.pool_contract_puzzle_hash.isSome quality
            h0 σ0 h1 σ1 r.farmer_pk = .cont (some m))) := by
  unfold handle_signature at hm
  cases hsp : List.lookup r.sp_hash st.signage_points with
  | none => rw [hsp] at hm; simp at hm
  | some sps =>
    rw [hsp] at hm
    cases sps with
    | nil => simp at hm
    | cons sp0 rest =>
      dsimp only at hm
      cases hdet : detectSpSignatures r.sp_hash r.message_signatures (sp0 :: rest) with
      | error e2 => rw [hdet] at hm; simp at hm
      | ok p =>
        obtain ⟨isSp, found⟩ := p
        rw [hdet] at hm
        dsimp only at hm
        split at hm
        · simp at hm
        · cases hpl : List.lookup r.sp_hash st.proofs_of_space with
          | none => rw [hpl] at hm; simp at hm
          | some proofs =>
            rw [hpl] at hm
            dsimp only at hm
            cases hpo : List.lookup r.plot_identifier proofs with
            | none => rw [hpo] at hm; simp at hm
            | some pospace =>
              rw [hpo] at hm
              dsimp only at hm
              cases hq : qual pospace r.challenge_hash r.sp_hash with
              | none => rw [hq] at hm; simp at hm
              | some quality =>
                rw [hq] at hm
                dsimp only at hm
                cases isSp with
                | true =>
                  rw [if_pos (show (true = true) from rfl)] at hm
                  unfold runPhaseA at hm
                  cases hm0 : r.message_signatures[0]? with
                  | none => rw [hm0] at hm; simp at hm
                  | some m0 =>
                    cases hm1 : r.message_signatures[1]? with
                    | none => rw [hm0, hm1] at hm; simp at hm
                    | some m1 =>
                      obtain ⟨ccSp, s0⟩ := m0
                      obtain ⟨rcSp, s1⟩ := m1
                      rw [hm0, hm1] at hm
                      dsimp only at hm
                      cases s0 with
                      | malformed => simp [decodeSig] at hm
                      | wellFormed σ0 =>
                        cases s1 with
                        | malformed => simp [decodeSig] at hm
                        | wellFormed σ1 =>
                          dsimp only [decodeSig] at hm
                          rw [keyLoop_eq] at hm
                          cases hbody : phaseABody st r pospace
                              pospace.pool_contract_puzzle_hash.isSome
                              sp0.signage_point_index ccSp σ0 rcSp σ1 r.farmer_pk with
                          | exit => rw [hbody] at hm; simp at hm
                          | cont mo =>
                            cases mo with
                            | none => rw [hbody] at hm; simp at hm
                            | some m2 =>
                              rw [hbody] at hm
                              dsimp only at hm
                              have hmm : m = m2 := List.eq_of_mem_replicate hm
                              subst hmm
                              exact ⟨sp0, rest, proofs, pospace, true, found, quality,
                                ccSp, .wellFormed σ0, rcSp, .wellFormed σ1, σ0, σ1,
                                rfl, hdet, rfl, hpo, hq, rfl, rfl, rfl, rfl,
                                Or.inl ⟨rfl, hbody⟩⟩
                | false =>
                  rw [if_neg (show ¬(false = true) by simp)] at hm
                  split at hm
                  · next hlen =>
                    unfold runPhaseB at hm
                    cases hm0 : r.message_signatures[0]? with
                    | none => rw [hm0] at hm; simp at hm
                    | some m0 =>
                      cases hm1 : r.message_signatures[1]? with
                      | none => rw [hm0, hm1] at hm; simp at hm
                      | some m1 =>
                        obtain ⟨fbH, s0⟩ := m0
                        obtain ⟨ftH, s1⟩ := m1
                        rw [hm0, hm1] at hm
                        dsimp only at hm
                        cases s0 with
                        | malformed => simp [decodeSig] at hm
                        | wellFormed σ0 =>
                          cases s1 with
                          | malformed => simp [decodeSig] at hm
                          | wellFormed σ1 =>
                            dsimp only [decodeSig] at hm
                            rw [keyLoop_eq] at hm
                            cases hbody : phaseBBody st r
                                pospace.pool_contract_puzzle_hash.isSome quality
                                fbH σ0 ftH σ1 r.farmer_pk with
                            | exit => rw [hbody] at hm; simp at hm
                            | cont mo =>
                              cases mo with
                              | none => rw [hbody] at hm; simp at hm
                              | some m2 =>
                                rw [hbody] at hm
                                dsimp only at hm
                                have hmm : m = m2 := List.eq_of_mem_replicate hm
                                subst hmm
                                exact ⟨sp0, rest, proofs, pospace, false, found, quality,
                                  fbH, .wellFormed σ0, ftH, .wellFormed σ1, σ0, σ1,
                                  rfl, hdet, rfl, hpo, hq, rfl, rfl, rfl, rfl,
                                  Or.inr ⟨rfl, hlen, hbody⟩⟩
                  · simp at hm

/-- C5: every emitted outbound message carries aggregate signatures built as
harvester share ++ farmer share ++ taproot component, where the taproot
component (tapShare) is the sign_prepend by the key from generate_taproot_sk
applied to (local_pk, matching farmer public key) exactly when the candidate
proof's pool_contract_puzzle_hash is Some, and is empty when it is None: a
taproot partial signature is included iff the proof is contract-bound, and
when required it is actually computed and aggregated, never omitted. -/
theorem taproot_share_iff_pool_contract
    (qual : ProofOfSpace → Nat → Nat → Option Nat)
    (st : FarmerSharedState) (r : RespondSignatures)
    (proofs : List (Nat × ProofOfSpace)) (pospace : ProofOfSpace) (m : OutMessage)
    (hproofs : List.lookup r.sp_hash st.proofs_of_space = some proofs)
    (hpos : List.lookup r.plot_identifier proofs = some pospace)
    (hm : m ∈ (handle_signature qual st r).sent) :
    ∃ sk tap aggPk h0 s0 h1 s1 σ0 σ1,
      pkToBytes (skToPk sk) = r.farmer_pk ∧
      tap = pospace.pool_contract_puzzle_hash.isSome ∧
      aggPk = generate_plot_public_key ⟨r.local_pk⟩ (skToPk sk) tap ∧
      r.message_signatures[0]? = some (h0, s0) ∧
      r.message_signatures[1]? = some (h1, s1) ∧
      decodeSig s0 = Except.ok σ0 ∧
      decodeSig s1 = Except.ok σ1 ∧
      (match m with
        | OutMessage.declare d =>
            d.challenge_chain_sp_signature =
              σ0 ++ sign_prepend sk h0 aggPk ++
                tapShare tap ⟨r.local_pk⟩ (skToPk sk) h0 aggPk ∧
            d.reward_chain_sp_signature =
              σ1 ++ sign_prepend sk h1 aggPk ++
                tapShare tap ⟨r.local_pk⟩ (skToPk sk) h1 aggPk
        | OutMessage.signedValues v =>
            v.foliage_block_data_signature =
              σ0 ++ sign_prepend sk h0 aggPk ++
                tapShare tap ⟨r.local_pk⟩ (skToPk sk) h0 aggPk ∧
            v.foliage_transaction_block_signature =
              σ1 ++ sign_prepend sk h1 aggPk ++
                tapShare tap ⟨r.local_pk⟩ (skToPk sk) h1 aggPk) := by
  obtain ⟨sp0, rest, proofs2, pospace2, isSp, found, quality, h0, s0, h1, s1, σ0, σ1,
    hsp, hdet, hpl, hpo, hq, hm0, hm1, hd0, hd1, hcase⟩ :=
    mem_sent_characterization qual st r m hm
  obtain rfl : proofs = proofs2 := Option.some.inj (hproofs.symm.trans hpl)
  obtain rfl : pospace = pospace2 := Option.some.inj (hpos.symm.trans hpo)
  rcases hcase with ⟨hisSp, hbody⟩ | ⟨hisSp, hlen, hbody⟩
  · obtain ⟨d, rfl, hcc, hrc, -, -, -, -, -, -, -⟩ :=
      phaseABody_cont _ _ _ _ _ _ _ _ _ _ _ hbody
    exact ⟨r.farmer_pk, _, _, h0, s0, h1, s1, σ0, σ1, rfl, rfl, rfl,
      hm0, hm1, hd0, hd1, hcc, hrc⟩
  · obtain ⟨v, rfl, -, hfb, hft⟩ := phaseBBody_cont _ _ _ _ _ _ _ _ _ _ hbody
    exact ⟨r.farmer_pk, _, _, h0, s0, h1, s1, σ0, σ1, rfl, rfl, rfl,
      hm0, hm1, hd0, hd1, hfb, hft⟩

/-- C5 witness: a contract-bound candidate proof (pool_contract_puzzle_hash
some 77) leads to an emitted declaration whose aggregates contain the taproot
share (signer 11 = generate_taproot_sk of local key 2 and farmer key 3). -/
theorem taproot_share_iff_pool_contract_witness :
    ∃ sk tap aggPk h0 s0 h1 s1 σ0 σ1,
      pkToBytes (skToPk sk) = 3 ∧
      tap = true ∧
      aggPk = generate_plot_public_key ⟨2⟩ (skToPk sk) tap ∧
      ([(1, SigBytes.wellFormed [⟨2, 1, 16⟩]), (2, SigBytes.wellFormed [⟨2, 2, 16⟩])] :
          List (Nat × SigBytes))[0]? = some (h0, s0) ∧
      ([(1, SigBytes.wellFormed [⟨2, 1, 16⟩]), (2, SigBytes.wellFormed [⟨2, 2, 16⟩])] :
          List (Nat × SigBytes))[1]? = some (h1, s1) ∧
      decodeSig s0 = Except.ok σ0 ∧
      decodeSig s1 = Except.ok σ1 ∧
      (([⟨2, 1, 16⟩, ⟨3, 1, 16⟩, ⟨11, 1, 16⟩] : Sig) =
          σ0 ++ sign_prepend sk h0 aggPk ++ tapShare tap ⟨2⟩ (skToPk sk) h0 aggPk ∧
        ([⟨2, 2, 16⟩, ⟨3, 2, 16⟩, ⟨11, 2, 16⟩] : Sig) =
          σ1 ++ sign_prepend sk h1 aggPk ++ tapShare tap ⟨2⟩ (skToPk sk) h1 aggPk) :=
  taproot_share_iff_pool_contract (fun _ _ _ => some 7)
    ⟨[(1, [⟨5, 1, 2, 9⟩])], [(1, [(4, ⟨16, none, some 77⟩)])], [(3, 3)], [], 11, 12, true⟩
    ⟨5, 1, 4, 2, 3, [(1, .wellFormed [⟨2, 1, 16⟩]), (2, .wellFormed [⟨2, 2, 16⟩])]⟩
    [(4, ⟨16, none, some 77⟩)] ⟨16, none, some 77⟩
    (.declare ⟨5, 1, 9, 2, ⟨16, none, some 77⟩,
      [⟨2, 1, 16⟩, ⟨3, 1, 16⟩, ⟨11, 1, 16⟩],
      [⟨2, 2, 16⟩, ⟨3, 2, 16⟩, ⟨11, 2, 16⟩], 11, none, none⟩)
    (by rfl) (by rfl) (by decide)

/-- When the candidate proof carries a pool public key for which the key ring
holds no private key, every signage-point-phase loop body iteration exits
without sending (respond_signatures.rs lines 199-217). -/
theorem phaseABody_pool_missing (st : FarmerSharedState) (r : RespondSignatures)
    (pospace : ProofOfSpace) (tap : Bool) (idx ccSp rcSp : Nat)
    (ccSig rcSig : Sig) (sk ppk : Nat)
    (hpp : pospace.pool_public_key = some ppk)
    (hlk : List.lookup ppk st.pool_public_keys = none) :
    phaseABody st r pospace tap idx ccSp ccSig rcSp rcSig sk = .exit := by
  cases tap <;>
  [ (unfold phaseABody
     dsimp only
     rw [if_neg (show ¬(false = true) by simp)]) ;
    (unfold phaseABody
     dsimp only
     rw [if_pos (show (true = true) from rfl)]) ] <;>
  · dsimp only
    split
    · rfl
    · split
      · rfl
      · split
        · rfl
        · rw [hpp]
          dsimp only
          rw [hlk]

/-- C7: for a signage-point-phase response whose candidate proof carries
pool_public_key = Some ppk: if the key ring holds no pool private key for
ppk, nothing is emitted (logged error, Ok return); if it holds one, any
emitted declaration carries pool_target (max_height 0, the shared pool
target) and a signature over that structure by the pool private key. -/
theorem pool_key_handling
    (qual : ProofOfSpace → Nat → Nat → Option Nat)
    (st : FarmerSharedState) (r : RespondSignatures)
    (proofs : List (Nat × ProofOfSpace)) (pospace : ProofOfSpace) (ppk : Nat)
    (hproofs : List.lookup r.sp_hash st.proofs_of_space = some proofs)
    (hpos : List.lookup r.plot_identifier proofs = some pospace)
    (hpp : pospace.pool_public_key = some ppk) :
    ((∀ sps found, List.lookup r.sp_hash st.signage_points = some sps →
        detectSpSignatures r.sp_hash r.message_signatures sps = Except.ok (true, found) →
        List.lookup ppk st.pool_public_keys = none →
        (handle_signature qual st r).sent = []) ∧
      (∀ psk m d, List.lookup ppk st.pool_public_keys = some psk →
        m ∈ (handle_signature qual st r).sent → m = OutMessage.declare d →
        d.pool_target = some ⟨0, st.pool_target⟩ ∧
        d.pool_signature = some (sign psk (poolTargetBytes ⟨0, st.pool_target⟩)))) := by
  constructor
  · intro sps found hsps hdet hnone
    rw [List.eq_nil_iff_forall_not_mem]
    intro m hm
    obtain ⟨sp0, rest, proofs2, pospace2, isSp, found2, quality, h0, s0, h1, s1, σ0, σ1,
      hsp2, hdet2, hpl2, hpo2, hq2, hm0, hm1, hd0, hd1, hcase⟩ :=
      mem_sent_characterization qual st r m hm
    obtain rfl : proofs = proofs2 := Option.some.inj (hproofs.symm.trans hpl2)
    obtain rfl : pospace = pospace2 := Option.some.inj (hpos.symm.trans hpo2)
    obtain rfl : sps = sp0 :: rest := Option.some.inj (hsps.symm.trans hsp2)
    have hfst : true = isSp :=
      (Prod.ext_iff.mp (Except.ok.inj (hdet.symm.trans hdet2))).1
    rcases hcase with ⟨-, hbody⟩ | ⟨hisSp2, -, -⟩
    · rw [phaseABody_pool_missing _ _ _ _ _ _ _ _ _ _ _ hpp hnone] at hbody
      exact absurd hbody (by simp)
    · exact absurd (hfst.trans hisSp2) (by simp)
  · intro psk m d hpsk hm hmd
    subst hmd
    obtain ⟨sp0, rest, proofs2, pospace2, isSp, found2, quality, h0, s0, h1, s1, σ0, σ1,
      hsp2, hdet2, hpl2, hpo2, hq2, hm0, hm1, hd0, hd1, hcase⟩ :=
      mem_sent_characterization qual st r _ hm
    obtain rfl : proofs = proofs2 := Option.some.inj (hproofs.symm.trans hpl2)
    obtain rfl : pospace = pospace2 := Option.some.inj (hpos.symm.trans hpo2)
    rcases hcase with ⟨-, hbody⟩ | ⟨-, -, hbody⟩
    · obtain ⟨d2, hd2, -, -, -, -, -, -, -, -, hpool⟩ :=
        phaseABody_cont _ _ _ _ _ _ _ _ _ _ _ hbody
      obtain rfl : d = d2 := by
        have := hd2
        simp only [OutMessage.declare.injEq] at this
        exact this
      rcases hpool with ⟨hn, -, -⟩ | ⟨ppk2, psk2, hpp2, hlk2, hpt, hps⟩
      · rw [hpp] at hn
        exact absurd hn (by simp)
      · obtain rfl : ppk = ppk2 := Option.some.inj (hpp.symm.trans hpp2)
        obtain rfl : psk = psk2 := Option.some.inj (hpsk.symm.trans hlk2)
        exact ⟨hpt, hps⟩
    · obtain ⟨v, hv, -, -, -⟩ := phaseBBody_cont _ _ _ _ _ _ _ _ _ _ hbody
      exact absurd hv (by simp)

/-- C7 witness: concrete signage-point-phase response whose candidate proof
carries pool public key 50 with no matching private key in the ring: nothing
is sent. -/
theorem pool_key_handling_witness :
    (handle_signature (fun _ _ _ => some 7)
      ⟨[(1, [⟨5, 1, 2, 9⟩])], [(1, [(4, ⟨13, some 50, none⟩)])], [(3, 3)], [], 11, 12, true⟩
      ⟨5, 1, 4, 10, 3,
        [(1, .wellFormed [⟨10, 1, 13⟩]), (2, .wellFormed [⟨10, 2, 13⟩])]⟩).sent = [] :=
  (pool_key_handling (fun _ _ _ => some 7)
    ⟨[(1, [⟨5, 1, 2, 9⟩])], [(1, [(4, ⟨13, some 50, none⟩)])], [(3, 3)], [], 11, 12, true⟩
    ⟨5, 1, 4, 10, 3, [(1, .wellFormed [⟨10, 1, 13⟩]), (2, .wellFormed [⟨10, 2, 13⟩])]⟩
    [(4, ⟨13, some 50, none⟩)] ⟨13, some 50, none⟩ 50
    (by rfl) (by rfl) (by rfl)).1
    [⟨5, 1, 2, 9⟩] true (by rfl) (by rfl) (by rfl)

/-- C6: for a signage-point-phase response with messages
((sp_hash, sigA), (R1, sigB)) where a stored signage point for sp_hash has
reward_chain_sp R1, the candidate proof has no pool public key and no pool
contract, a farmer private key matches farmer_pk, the derived plot key
matches the stored one, the proof passes the quality verifier, both
aggregates verify, and a connection is held: handle_signature emits exactly
one DeclareProofOfSpace whose challenge_chain_sp equals sp_hash,
reward_chain_sp equals R1, pool_target and pool_signature are None, and
signage_point_index equals the first stored record's signage_point_index. -/
theorem sp_phase_declare_scenario
    (qual : ProofOfSpace → Nat → Nat → Option Nat)
    (st : FarmerSharedState) (r : RespondSignatures)
    (rec : SignagePointRecord) (rest : List SignagePointRecord)
    (R1 : Nat) (σA σB : Sig)
    (proofs : List (Nat × ProofOfSpace)) (pospace : ProofOfSpace)
    (kb fsk q : Nat)
    (hsps : List.lookup r.sp_hash st.signage_points = some (rec :: rest))
    (hrc : rec.reward_chain_sp = R1)
    (hms : r.message_signatures = [(r.sp_hash, .wellFormed σA), (R1, .wellFormed σB)])
    (hproofs : List.lookup r.sp_hash st.proofs_of_space = some proofs)
    (hpos : List.lookup r.plot_identifier proofs = some pospace)
    (hpk : pospace.pool_public_key = none)
    (hpc : pospace.pool_contract_puzzle_hash = none)
    (hkeys : st.farmer_private_keys = [(kb, fsk)])
    (hfpk : pkToBytes (skToPk fsk) = r.farmer_pk)
    (hmatch : pkToBytes (generate_plot_public_key ⟨r.local_pk⟩ (skToPk fsk) false) =
      pospace.plot_public_key)
    (hq : qual pospace r.challenge_hash r.sp_hash = some q)
    (hv1 : verify
      (aggregate [σA, sign_prepend fsk r.sp_hash
        (generate_plot_public_key ⟨r.local_pk⟩ (skToPk fsk) false)])
      r.sp_hash
      (pkToBytes (generate_plot_public_key ⟨r.local_pk⟩ (skToPk fsk) false))
      (generate_plot_public_key ⟨r.local_pk⟩ (skToPk fsk) false) = true)
    (hv2 : verify
      (aggregate [σB, sign_prepend fsk R1
        (generate_plot_public_key ⟨r.local_pk⟩ (skToPk fsk) false)])
      R1
      (pkToBytes (generate_plot_public_key ⟨r.local_pk⟩ (skToPk fsk) false))
      (generate_plot_public_key ⟨r.local_pk⟩ (skToPk fsk) false) = true)
    (hclient : st.full_node_client = true) :
    handle_signature qual st r =
      ⟨.ok, [.declare ⟨r.challenge_hash, r.sp_hash, rec.signage_point_index, R1, pospace,
        aggregate [σA, sign_prepend fsk r.sp_hash
          (generate_plot_public_key ⟨r.local_pk⟩ (skToPk fsk) false)],
        aggregate [σB, sign_prepend fsk R1
          (generate_plot_public_key ⟨r.local_pk⟩ (skToPk fsk) false)],
        st.farmer_target, none, none⟩]⟩ := by
  have hmatch2 : (pkToBytes (generate_plot_public_key ⟨r.local_pk⟩ (skToPk fsk) false) ≠
      pospace.plot_public_key) = False := by simp [hmatch]
  have hfpk2 : (pkToBytes (skToPk fsk) == r.farmer_pk) = true := by simp [hfpk]
  simp only [handle_signature, runPhaseA, phaseABody, keyLoop, detectSpSignatures,
    decodeSig, mkDeclare, hsps, hms, hproofs, hpos, hkeys, hq, hrc, hpk, hpc, hclient,
    hmatch2, hfpk2, hv1, hv2, List.getElem?_cons_zero, List.getElem?_cons_succ,
    List.any_cons, List.any_nil, Option.isSome_none, Option.isSome_some,
    beq_self_eq_true, Bool.not_true, Bool.and_false, Bool.or_false, Bool.false_or,
    Bool.true_or, Bool.or_true, not_false_eq_true, not_true_eq_false,
    Bool.false_eq_true, eq_self_iff_true, if_true, if_false, ite_true, ite_false]

/-- C6 witness: a concrete honest signage-point-phase response (sp_hash 1,
reward chain 2, farmer key 3, local key 10) produces exactly the expected
declaration. -/
theorem sp_phase_declare_scenario_witness :
    handle_signature (fun _ _ _ => some 7)
      ⟨[(1, [⟨5, 1, 2, 9⟩])], [(1, [(4, ⟨13, none, none⟩)])], [(3, 3)], [], 11, 12, true⟩
      ⟨5, 1, 4, 10, 3,
        [(1, .wellFormed [⟨10, 1, 13⟩]), (2, .wellFormed [⟨10, 2, 13⟩])]⟩ =
    ⟨.ok, [.declare ⟨5, 1, 9, 2, ⟨13, none, none⟩,
      [⟨10, 1, 13⟩, ⟨3, 1, 13⟩], [⟨10, 2, 13⟩, ⟨3, 2, 13⟩], 11, none, none⟩]⟩ :=
  sp_phase_declare_scenario (fun _ _ _ => some 7)
    ⟨[(1, [⟨5, 1, 2, 9⟩])], [(1, [(4, ⟨13, none, none⟩)])], [(3, 3)], [], 11, 12, true⟩
    ⟨5, 1, 4, 10, 3, [(1, .wellFormed [⟨10, 1, 13⟩]), (2, .wellFormed [⟨10, 2, 13⟩])]⟩
    ⟨5, 1, 2, 9⟩ [] 2 [⟨10, 1, 13⟩] [⟨10, 2, 13⟩]
    [(4, ⟨13, none, none⟩)] ⟨13, none, none⟩ 3 3 7
    (by rfl) (by rfl) (by rfl) (by rfl) (by rfl) (by rfl) (by rfl) (by rfl)
    (by rfl) (by decide) (by rfl) (by decide) (by decide) (by rfl)

/-- C8 counterexample: a response that matches no stored proof candidate (the
proofs map has no entry for its sp_hash) is claimed to return Ok with no
side effect, but with a known non-empty signage point list and an empty
message list the call panics before the proof lookup is ever reached. -/
theorem unknown_proof_panic_counterexample :
    List.lookup 2 (FarmerSharedState.mk [(2, [⟨6, 2, 8, 4⟩])] [] [] [] 0 0 true).proofs_of_space
        = none ∧
    handle_signature (fun _ _ _ => none)
      ⟨[(2, [⟨6, 2, 8, 4⟩])], [], [], [], 0, 0, true⟩
      ⟨6, 2, 1, 0, 0, []⟩ =
    ⟨.panicked "index out of bounds", []⟩ :=
  ⟨rfl, rfl⟩

/-- C8 (amended): a response whose sp_hash has no entry, or an empty list, in
the signage-point map returns Ok with nothing sent, for any message list;
a response matching no stored proof candidate likewise returns Ok with
nothing sent provided its message-signature list does not trigger the
out-of-bounds or assertion panic (the detection loop completes and the
assertion condition holds).  handle_signature reads but never writes the
shared state. -/
theorem state_miss_drops_ok
    (qual : ProofOfSpace → Nat → Nat → Option Nat)
    (st : FarmerSharedState) (r : RespondSignatures) :
    (List.lookup r.sp_hash st.signage_points = none →
      handle_signature qual st r = ⟨.ok, []⟩) ∧
    (List.lookup r.sp_hash st.signage_points = some [] →
      handle_signature qual st r = ⟨.ok, []⟩) ∧
    (∀ sps isSp found,
      List.lookup r.sp_hash st.signage_points = some sps →
      detectSpSignatures r.sp_hash r.message_signatures sps = Except.ok (isSp, found) →
      (found = true → isSp = true) →
      (∀ proofs, List.lookup r.sp_hash st.proofs_of_space = some proofs →
        List.lookup r.plot_identifier proofs = none) →
      handle_signature qual st r = ⟨.ok, []⟩) := by
  refine ⟨?_, ?_, ?_⟩
  · intro h
    unfold handle_signature
    rw [h]
  · intro h
    unfold handle_signature
    rw [h]
  · intro sps isSp found hsps hdet hassert hnoproof
    unfold handle_signature
    rw [hsps]
    cases sps with
    | nil => rfl
    | cons sp0 rest =>
      dsimp only
      rw [hdet]
      dsimp only
      have hcond : (found && !isSp) = false := by
        cases found with
        | false => rfl
        | true =>
          rw [hassert rfl]
          rfl
      rw [hcond, if_neg (show ¬(false = true) by simp)]
      cases hpl : List.lookup r.sp_hash st.proofs_of_space with
      | none => rfl
      | some proofs =>
        dsimp only
        rw [hnoproof proofs hpl]

/-- C8 witness: a single-entry message list whose hash is not the sp_hash,
against a state whose proofs map has no entry for the sp_hash, is dropped
with Ok and nothing sent. -/
theorem state_miss_drops_ok_witness :
    handle_signature (fun _ _ _ => some 3)
      ⟨[(1, [⟨5, 1, 2, 9⟩])], [], [], [], 0, 0, true⟩
      ⟨5, 1, 4, 0, 0, [(7, .wellFormed [])]⟩ = ⟨.ok, []⟩ :=
  (state_miss_drops_ok (fun _ _ _ => some 3)
    ⟨[(1, [⟨5, 1, 2, 9⟩])], [], [], [], 0, 0, true⟩
    ⟨5, 1, 4, 0, 0, [(7, .wellFormed [])]⟩).2.2
    [⟨5, 1, 2, 9⟩] false false (by rfl) (by rfl)
    (fun h => absurd h (by simp))
    (fun proofs hp => absurd hp (by simp))

/-- The signage-point phase is invariant under permutation of the farmer
private key map. -/
theorem runPhaseA_key_perm
    (spMap : List (Nat × List SignagePointRecord))
    (prMap : List (Nat × List (Nat × ProofOfSpace)))
    (ks ks' poolKeys : List (Nat × Nat)) (ft pt : Nat) (cl : Bool)
    (r : RespondSignatures) (pospace : ProofOfSpace) (tap : Bool) (idx : Nat)
    (hperm : ks.Perm ks') :
    runPhaseA ⟨spMap, prMap, ks, poolKeys, ft, pt, cl⟩ r pospace tap idx =
      runPhaseA ⟨spMap, prMap, ks', poolKeys, ft, pt, cl⟩ r pospace tap idx := by
  unfold runPhaseA
  cases hm0 : r.message_signatures[0]? with
  | none => rfl
  | some m0 =>
    cases hm1 : r.message_signatures[1]? with
    | none => rfl
    | some m1 =>
      obtain ⟨ccSp, ccB⟩ := m0
      obtain ⟨rcSp, rcB⟩ := m1
      dsimp only
      cases ccB with
      | malformed => rfl
      | wellFormed σ0 =>
        cases rcB with
        | malformed => rfl
        | wellFormed σ1 =>
          dsimp only [decodeSig]
          rw [keyLoop_eq, keyLoop_eq]
          simp only [hperm.countP_eq]
          rfl

/-- The block/foliage phase is invariant under permutation of the farmer
private key map. -/
theorem runPhaseB_key_perm
    (spMap : List (Nat × List SignagePointRecord))
    (prMap : List (Nat × List (Nat × ProofOfSpace)))
    (ks ks' poolKeys : List (Nat × Nat)) (ft pt : Nat) (cl : Bool)
    (r : RespondSignatures) (tap : Bool) (quality : Nat)
    (hperm : ks.Perm ks') :
    runPhaseB ⟨spMap, prMap, ks, poolKeys, ft, pt, cl⟩ r tap quality =
      runPhaseB ⟨spMap, prMap, ks', poolKeys, ft, pt, cl⟩ r tap quality := by
  unfold runPhaseB
  cases hm0 : r.message_signatures[0]? with
  | none => rfl
  | some m0 =>
    cases hm1 : r.message_signatures[1]? with
    | none => rfl
    | some m1 =>
      obtain ⟨fbH, fbB⟩ := m0
      obtain ⟨ftH, ftB⟩ := m1
      dsimp only
      cases fbB with
      | malformed => rfl
      | wellFormed σ0 =>
        cases ftB with
        | malformed => rfl
        | wellFormed σ1 =>
          dsimp only [decodeSig]
          rw [keyLoop_eq, keyLoop_eq]
          simp only [hperm.countP_eq]
          rfl

/-- C9: handle_signature is deterministic.  It is a pure function of the
shared state, the response and the external quality verifier (no counters,
randomness or nonces), so two runs on identical inputs give identical
outbound bytes; moreover the one iteration order a HashMap leaves open, the
farmer-private-key loop, does not affect the result: permuting the key map
yields the same outcome and the same sent messages, aggregate signature
bytes included. -/
theorem handle_signature_key_order_irrelevant
    (qual : ProofOfSpace → Nat → Nat → Option Nat)
    (spMap : List (Nat × List SignagePointRecord))
    (prMap : List (Nat × List (Nat × ProofOfSpace)))
    (ks ks' poolKeys : List (Nat × Nat)) (ft pt : Nat) (cl : Bool)
    (r : RespondSignatures)
    (hperm : ks.Perm ks') :
    handle_signature qual ⟨spMap, prMap, ks, poolKeys, ft, pt, cl⟩ r =
      handle_signature qual ⟨spMap, prMap, ks', poolKeys, ft, pt, cl⟩ r := by
  unfold handle_signature
  dsimp only
  cases hsp : List.lookup r.sp_hash spMap with
  | none => rfl
  | some sps =>
    cases sps with
    | nil => rfl
    | cons sp0 rest =>
      dsimp only
      cases hdet : detectSpSignatures r.sp_hash r.message_signatures (sp0 :: rest) with
      | error e => rfl
      | ok p =>
        obtain ⟨isSp, found⟩ := p
        dsimp only
        by_cases hc : (found && !isSp) = true
        · rw [if_pos hc, if_pos hc]
        · rw [if_neg hc, if_neg hc]
          cases hpl : List.lookup r.sp_hash prMap with
          | none => rfl
          | some proofs =>
            dsimp only
            cases hpo : List.lookup r.plot_identifier proofs with
            | none => rfl
            | some pospace =>
              dsimp only
              cases hq : qual pospace r.challenge_hash r.sp_hash with
              | none => rfl
              | some quality =>
                dsimp only
                by_cases hsp2 : isSp = true
                · rw [if_pos hsp2, if_pos hsp2]
                  exact runPhaseA_key_perm _ _ _ _ _ _ _ _ _ _ _ _ hperm
                · rw [if_neg hsp2, if_neg hsp2]
                  by_cases hlen : r.message_signatures.length > 1
                  · rw [if_pos hlen, if_pos hlen]
                    exact runPhaseB_key_perm _ _ _ _ _ _ _ _ _ _ _ hperm
                  · rw [if_neg hlen, if_neg hlen]

/-- C9 witness: swapping the two entries of a concrete farmer key map leaves
the full result unchanged. -/
theorem handle_signature_key_order_irrelevant_witness :
    handle_signature (fun _ _ _ => some 7)
      ⟨[(1, [⟨5, 1, 2, 9⟩])], [(1, [(4, ⟨13, none, none⟩)])],
        [(8, 8), (3, 3)], [], 11, 12, true⟩
      ⟨5, 1, 4, 10, 3,
        [(1, .wellFormed [⟨10, 1, 13⟩]), (2, .wellFormed [⟨10, 2, 13⟩])]⟩ =
    handle_signature (fun _ _ _ => some 7)
      ⟨[(1, [⟨5, 1, 2, 9⟩])], [(1, [(4, ⟨13, none, none⟩)])],
        [(3, 3), (8, 8)], [], 11, 12, true⟩
      ⟨5, 1, 4, 10, 3,
        [(1, .wellFormed [⟨10, 1, 13⟩]), (2, .wellFormed [⟨10, 2, 13⟩])]⟩ :=
  handle_signature_key_order_irrelevant (fun _ _ _ => some 7)
    [(1, [⟨5, 1, 2, 9⟩])] [(1, [(4, ⟨13, none, none⟩)])]
    [(8, 8), (3, 3)] [(3, 3), (8, 8)] [] 11 12 true
    ⟨5, 1, 4, 10, 3, [(1, .wellFormed [⟨10, 1, 13⟩]), (2, .wellFormed [⟨10, 2, 13⟩])]⟩
    (List.Perm.swap (3, 3) (8, 8) [])

/-- Lookup after the association-list insert: the inserted key maps to the
new value, all other keys are unchanged. -/
theorem lookup_mapInsert (k v k2 : Nat) (m : List (Nat × Nat)) :
    List.lookup k2 (mapInsert k v m) = if k2 = k then some v else List.lookup k2 m := by
  induction m with
  | nil =>
    by_cases h : k2 = k
    · subst h
      simp [mapInsert, List.lookup]
    · have hb : (k2 == k) = false := beq_eq_false_iff_ne.mpr h
      simp [mapInsert, List.lookup, h, hb]
  | cons kv rest ih =>
    obtain ⟨a, b⟩ := kv
    by_cases hak : a = k
    · subst hak
      by_cases h : k2 = a
      · subst h
        simp [mapInsert, List.lookup]
      · have hb : (k2 == a) = false := beq_eq_false_iff_ne.mpr h
        simp [mapInsert, List.lookup, h, hb]
    · by_cases h : k2 = a
      · subst h
        simp [mapInsert, List.lookup, hak]
      · have hb : (k2 == a) = false := beq_eq_false_iff_ne.mpr h
        simp [mapInsert, List.lookup, hak, hb, ih]

/-- The auth map after one load_keys iteration: extended (keyed by the owner
public key) exactly when the entry has both an owner and an auth secret. -/
theorem load_keys_step_auth (acc : LoadedKeys) (fi : FarmingInfo) :
    (load_keys_step acc fi).auth_secret_keys =
      match fi.owner_secret_key, fi.auth_secret_key with
      | some oSk, some aSk =>
          mapInsert (pkToBytes (skToPk oSk)) aSk acc.auth_secret_keys
      | _, _ => acc.auth_secret_keys := by
  rcases hp : fi.pool_secret_key with _ | p <;>
  rcases ho : fi.owner_secret_key with _ | o <;>
  rcases ha : fi.auth_secret_key with _ | a <;>
  simp [load_keys_step, hp, ho, ha]

/-- Fold invariant: any binding in the accumulated auth map is either
inherited or contributed by some processed entry, keyed by that entry's
owner public key. -/
theorem load_keys_fold_auth (infos : List FarmingInfo) (acc : LoadedKeys) (k a : Nat)
    (h : List.lookup k (infos.foldl load_keys_step acc).auth_secret_keys = some a) :
    List.lookup k acc.auth_secret_keys = some a ∨
      ∃ fi ∈ infos, ∃ o, fi.owner_secret_key = some o ∧ fi.auth_secret_key = some a ∧
        k = pkToBytes (skToPk o) := by
  induction infos generalizing acc with
  | nil => exact Or.inl h
  | cons fi rest ih =>
    rcases ih (load_keys_step acc fi) h with hacc | ⟨fi2, hmem, o, ho, ha, hk⟩
    · rw [load_keys_step_auth] at hacc
      cases ho2 : fi.owner_secret_key with
      | none =>
        rw [ho2] at hacc
        exact Or.inl hacc
      | some o =>
        cases ha2 : fi.auth_secret_key with
        | none =>
          rw [ho2, ha2] at hacc
          exact Or.inl hacc
        | some a2 =>
          rw [ho2, ha2] at hacc
          dsimp only at hacc
          rw [lookup_mapInsert] at hacc
          by_cases hk : k = pkToBytes (skToPk o)
          · rw [if_pos hk] at hacc
            obtain rfl : a2 = a := Option.some.inj hacc
            exact Or.inr ⟨fi, List.mem_cons_self _ _, o, ho2, ha2, hk⟩
          · rw [if_neg hk] at hacc
            exact Or.inl hacc
    · exact Or.inr ⟨fi2, List.mem_cons_of_mem _ hmem, o, ho, ha, hk⟩

/-- An entry without an owner secret key is processed identically whether or
not it carries an auth secret key. -/
theorem load_keys_step_owner_none (acc : LoadedKeys) (fi : FarmingInfo)
    (h : fi.owner_secret_key = none) :
    load_keys_step acc fi = load_keys_step acc { fi with auth_secret_key := none } := by
  rcases hp : fi.pool_secret_key with _ | p <;>
  simp [load_keys_step, h, hp]

/-- C10: load_keys inserts each auth_secret_key into the returned auth map
keyed by the public key derived from the same entry's owner_secret_key
(never by the auth key's own public key), and an entry's auth_secret_key
contributes nothing to any returned map when that entry's owner_secret_key
is None (the whole result is unchanged if such an entry's auth key is
erased). -/
theorem load_keys_auth_keyed_by_owner :
    (∀ (infos : List FarmingInfo) (k a : Nat),
      List.lookup k (load_keys infos).auth_secret_keys = some a →
      ∃ fi ∈ infos, ∃ o, fi.owner_secret_key = some o ∧ fi.auth_secret_key = some a ∧
        k = pkToBytes (skToPk o)) ∧
    (∀ (pre post : List FarmingInfo) (fi : FarmingInfo),
      fi.owner_secret_key = none →
      load_keys (pre ++ fi :: post) =
        load_keys (pre ++ { fi with auth_secret_key := none } :: post)) := by
  constructor
  · intro infos k a h
    rcases load_keys_fold_auth infos ⟨[], [], [], []⟩ k a h with hacc | hex
    · simp [List.lookup] at hacc
    · exact hex
  · intro pre post fi h
    unfold load_keys
    rw [List.foldl_append, List.foldl_append, List.foldl_cons, List.foldl_cons,
      load_keys_step_owner_none _ _ h]

/-- C10 witness: for the entry (farmer 1, pool 2, owner 3, auth 4) the auth
binding under key 3 comes from the owner secret 3; and an ownerless entry's
auth key can be erased without changing load_keys at all. -/
theorem load_keys_auth_keyed_by_owner_witness :
    (∃ fi ∈ [FarmingInfo.mk 1 none (some 2) (some 3) (some 4)], ∃ o,
      fi.owner_secret_key = some o ∧ fi.auth_secret_key = some 4 ∧
      (3 : Nat) = pkToBytes (skToPk o)) ∧
    load_keys ([] ++ (⟨5, none, none, none, some 6⟩ : FarmingInfo) :: []) =
      load_keys ([] ++
        ({ (⟨5, none, none, none, some 6⟩ : FarmingInfo) with auth_secret_key := none }) :: []) :=
  ⟨load_keys_auth_keyed_by_owner.1 [⟨1, none, some 2, some 3, some 4⟩] 3 4 (by rfl),
   load_keys_auth_keyed_by_owner.2 [] [] ⟨5, none, none, none, some 6⟩ rfl⟩

/-- C4 witness: a signage-point-phase response whose first partial signature
fails decoding makes handle_signature return Err, and indeed one of the
first two message entries is malformed. -/
theorem err_only_from_malformed_signature_bytes_witness :
    (handle_signature (fun _ _ _ => some 7)
      ⟨[(1, [⟨5, 1, 2, 9⟩])], [(1, [(4, ⟨13, none, none⟩)])], [(3, 3)], [], 11, 12, true⟩
      ⟨5, 1, 4, 10, 3, [(1, .malformed), (2, .wellFormed [])]⟩).outcome =
        .err "malformed signature bytes" ∧
    (∃ i hsh, i < 2 ∧
      ([(1, SigBytes.malformed), (2, SigBytes.wellFormed [])] :
        List (Nat × SigBytes))[i]? = some (hsh, SigBytes.malformed)) :=
  ⟨rfl,
    err_only_from_malformed_signature_bytes (fun _ _ _ => some 7)
      ⟨[(1, [⟨5, 1, 2, 9⟩])], [(1, [(4, ⟨13, none, none⟩)])], [(3, 3)], [], 11, 12, true⟩
      ⟨5, 1, 4, 10, 3, [(1, .malformed), (2, .wellFormed [])]⟩
      "malformed signature bytes" rfl⟩

end DgFF
